import Mathlib

/-!
Verification development for the fms-core TypeScript repository
(CGMiner-compatible miner transport, response model, AUP firmware header
codec, and firmware-upgrade orchestration).

Modelling conventions used throughout this file:

* Binary data (Node `Buffer`s) is modelled as `List Nat`, one entry per
  byte.  JavaScript strings that only carry bytes (magic strings, firmware
  version fields, hardware/software type entries) are modelled at the byte
  level as well; `toStr`/`toBytes` from `utils.js` are then identities.
  This is exact for ASCII/Latin-1 content, which is the only content the
  repository itself ever writes.
* JavaScript numbers are modelled as `Nat`/`Int`; 32-bit buffer reads and
  writes take values below 2^32, and the CRC-32 loop keeps every
  intermediate below 2^32, matching the `>>> 0` / `ToInt32` bit patterns
  of the source.
* `Buffer.allocUnsafe` produces uninitialized memory; the model threads an
  arbitrary `junk : Nat → Nat` function for the initial contents, so every
  theorem about serialized output is proved for all possible junk.
-/

namespace FmsCore

/-- Bytes considered whitespace by JavaScript `String.prototype.trim`
(restricted to the code points that can appear in the byte-level model). -/
def isJsWsByte (b : Nat) : Bool :=
  b = 9 || b = 10 || b = 11 || b = 12 || b = 13 || b = 32

/-- Model of JavaScript `.trim()` on a byte-level string: drop leading and
trailing whitespace. -/
def trimBytes (l : List Nat) : List Nat :=
  ((l.dropWhile isJsWsByte).reverse.dropWhile isJsWsByte).reverse

/-- Model of `.replace(/\0/g, '')`: remove every NUL byte. -/
def stripNulBytes (l : List Nat) : List Nat :=
  l.filter (fun b => b ≠ 0)

/-- ASCII bytes of a Lean string literal (used for the constant strings the
source compares against; all of them are ASCII). -/
def asciiBytes (s : String) : List Nat :=
  s.toList.map Char.toNat

/-- Model of `Buffer.readUInt32LE(off)`: little-endian 32-bit read.  Node
throws `RangeError` when fewer than 4 bytes are available; the model
returns `none` there. -/
def readU32LE (bs : List Nat) (off : Nat) : Option Nat :=
  if off + 4 ≤ bs.length then
    some (bs.getD off 0 + 256 * bs.getD (off + 1) 0 +
          65536 * bs.getD (off + 2) 0 + 16777216 * bs.getD (off + 3) 0)
  else
    none

/-- Little-endian byte encoding of a 32-bit value, as written by
`Buffer.writeUInt32LE`. -/
def u32le (v : Nat) : List Nat :=
  [v % 256, v / 256 % 256, v / 65536 % 256, v / 16777216 % 256]

/-- Model of `Buffer.subarray(off, off + len)` (clamping, never throwing). -/
def subBytes (bs : List Nat) (off len : Nat) : List Nat :=
  (bs.drop off).take len

/-- Overwrite the bytes of a buffer (modelled as an index function) starting
at `off` with `data`, as `Buffer.copy` / `writeUInt32LE` do.  Writes that
fall past the extracted length are invisible in the final buffer, matching
Node's clamping of `copy` at the target's end. -/
def writeAt (buf : Nat → Nat) (off : Nat) (data : List Nat) : Nat → Nat :=
  fun i => if off ≤ i ∧ i < off + data.length then data.getD (i - off) 0 else buf i

/-- Extract the first `n` bytes of an index-function buffer as a list. -/
def bufToList (buf : Nat → Nat) (n : Nat) : List Nat :=
  (List.range n).map buf

/-- Model of `String.prototype.padEnd(n, '\0')` at the byte level: pad with
NULs up to length `n` (strings already at least `n` long are unchanged). -/
def padZeros (n : Nat) (l : List Nat) : List Nat :=
  l ++ List.replicate (n - l.length) 0

/-- One round of the CRC-32 inner loop from `aup-file.ts`:
`crc = (crc >>> 1) ^ (crc & 1 ? 0xedb88320 : 0)`.  All intermediates stay
below 2^32, matching the JavaScript `>>> 1` / `^ 0xedb88320` bit patterns. -/
def crc32Round (c : Nat) : Nat :=
  if c % 2 = 1 then (c / 2) ^^^ 0xedb88320 else c / 2

/-- One byte of the CRC-32 loop from `aup-file.ts`: xor the byte in, then
the eight-round inner `for` loop, unrolled. -/
def crc32Byte (crc b : Nat) : Nat :=
  crc32Round (crc32Round (crc32Round (crc32Round
    (crc32Round (crc32Round (crc32Round (crc32Round (crc ^^^ b))))))))

/-- Model of the `crc32` function in `aup-file.ts`: reflected CRC-32,
polynomial 0xEDB88320, initial value 0xFFFFFFFF, final XOR 0xFFFFFFFF. -/
def crc32 (bs : List Nat) : Nat :=
  (bs.foldl crc32Byte 0xffffffff) ^^^ 0xffffffff

/-- The header fields parsed by `AupHeader.fromBytes` (`aup-parser.ts`).
Optional fields are absent for format versions that do not carry them.
The TypeScript `hwList` union type is split into `hwComma` (version 1,
comma-separated list) and `hwEntries` (version 2, fixed 32-byte entries). -/
structure AupHeaderData where
  payloadLen : Option Nat := none
  firmwareVer : Option (List Nat) := none
  payloadCrc : Option Nat := none
  headerLen : Option Nat := none
  hwComma : Option (List (List Nat)) := none
  hwEntries : Option (List (List Nat)) := none
  hwListCount : Option Nat := none
  swEntries : Option (List (List Nat)) := none
  swListCount : Option Nat := none
deriving Repr, DecidableEq

/-- The parsed AUP header object (`AupHeader` in `aup-parser.ts`).  `magic`
is the NUL-stripped first 16 bytes, as stored by `fromBytes`. -/
structure AupHeader where
  magic : List Nat
  fmtVer : Nat
  headerData : AupHeaderData
deriving Repr, DecidableEq

namespace AupHeader

/-- Model of `AupHeader.parseCommaSeparatedStrList`: split the 128-byte
region on commas (byte 44), dropping NULs and empty segments. -/
def parseCommaSeparatedStrList (bs : List Nat) : List (List Nat) :=
  let step : List (List Nat) × List Nat → Nat → List (List Nat) × List Nat :=
    fun acc b =>
      if b = 44 then
        (if acc.2 = [] then acc.1 else acc.1 ++ [acc.2], [])
      else if b = 0 then acc
      else (acc.1, acc.2 ++ [b])
  let fin := bs.foldl step ([], [])
  if fin.2 = [] then fin.1 else fin.1 ++ [fin.2]

/-- Model of `AupHeader.bytesTerminate(buf, 0)`: the prefix before the
first NUL (the whole buffer when no NUL occurs). -/
def bytesTerminate (bs : List Nat) : List Nat :=
  bs.takeWhile (fun b => b ≠ 0)

/-- Model of `AupHeader.fromBytes`.  Out-of-range `readUInt32LE` calls
throw `RangeError` in Node; the model returns `none` there.  String fields
are NUL-stripped exactly as the source does on parse. -/
def fromBytes (bs : List Nat) : Option AupHeader := do
  let magic := stripNulBytes (subBytes bs 0 16)
  let fmtVer ← readU32LE bs 16
  if fmtVer = 0 then
    let pl ← readU32LE bs 20
    let fw := stripNulBytes (subBytes bs 24 64)
    let crc ← readU32LE bs 88
    pure ⟨magic, fmtVer,
      { payloadLen := some pl, firmwareVer := some fw, payloadCrc := some crc }⟩
  else if fmtVer = 1 then
    let hl ← readU32LE bs 20
    let hw := parseCommaSeparatedStrList (subBytes bs 24 128)
    let pl ← readU32LE bs 152
    let fw := stripNulBytes (subBytes bs 156 64)
    let crc ← readU32LE bs 220
    pure ⟨magic, fmtVer,
      { payloadLen := some pl, firmwareVer := some fw, payloadCrc := some crc,
        headerLen := some hl, hwComma := some hw }⟩
  else if fmtVer = 2 then
    let pl ← readU32LE bs 20
    let fw := stripNulBytes (subBytes bs 24 64)
    let crc ← readU32LE bs 88
    let hwc ← readU32LE bs 92
    let swc ← readU32LE bs 96
    let hw := (List.range hwc).map (fun i => bytesTerminate (subBytes bs (100 + 32 * i) 32))
    let sw := (List.range swc).map
      (fun i => bytesTerminate (subBytes bs (100 + 32 * hwc + 32 * i) 32))
    pure ⟨magic, fmtVer,
      { payloadLen := some pl, firmwareVer := some fw, payloadCrc := some crc,
        hwListCount := some hwc, hwEntries := some hw,
        swListCount := some swc, swEntries := some sw }⟩
  else
    pure ⟨magic, fmtVer, {}⟩

end AupHeader

/-- The byte content of the required magic string `"AUP format"`. -/
def aupMagicBytes : List Nat := asciiBytes "AUP format"

/-- The firmware-version strings for which `_hackSupportedHwtypeList`
force-adds the `MM3v1_X3` hardware type. -/
def hackVersionList : List (List Nat) :=
  [asciiBytes "19092001_01ce5cf_789e6f2",
   asciiBytes "19101401_956c147_08bcf10",
   asciiBytes "19101201_fe411a8_71edeca",
   asciiBytes "19101501_f293f38_2fbfeda"]

/-- Model of `AUPHeaderInfo` after construction: the parsed header (if
parsing did not throw), the legality flag, and the computed supported
hardware-type list. -/
structure AUPHeaderInfo where
  parsedHeader : Option AupHeader
  isLegal : Bool
  supportedHwtypeList : List (List Nat)
deriving Repr, DecidableEq

namespace AUPHeaderInfo

/-- Model of `AUPHeaderInfo.firmwareVer()`:
`toStr(headerData.firmwareVer || '').replace(/\0/g, '').trim()`. -/
def firmwareVerOf (h : AupHeader) : List Nat :=
  trimBytes (stripNulBytes (h.headerData.firmwareVer.getD []))

/-- Model of `AUPHeaderInfo.magic()`: NUL-strip and trim the stored magic. -/
def magicOf (h : AupHeader) : List Nat :=
  trimBytes (stripNulBytes h.magic)

/-- Model of the `AUPHeaderInfo` constructor.  It parses the bytes, checks
the magic, runs the hardware-type hack (which is then overwritten for
format versions 1 and 2, exactly as in the source, where the later
assignments clobber the hacked list), and sets the legality flag. -/
def mk_ (bs : List Nat) : AUPHeaderInfo :=
  match AupHeader.fromBytes bs with
  | none => ⟨none, false, []⟩
  | some h =>
    if magicOf h ≠ aupMagicBytes then ⟨some h, false, []⟩
    else
      let hacked : List (List Nat) :=
        if hackVersionList.contains (firmwareVerOf h) then [asciiBytes "MM3v1_X3"] else []
      let supported : List (List Nat) :=
        if h.fmtVer = 1 then
          (h.headerData.hwComma.getD []).map (fun s => trimBytes (stripNulBytes s))
        else if h.fmtVer = 2 then
          (h.headerData.hwEntries.getD []).map (fun s => trimBytes (stripNulBytes s))
        else hacked
      ⟨some h, true, supported⟩

/-- Model of `AUPHeaderInfo.allSupportedSwtypeList()`. -/
def allSupportedSwtypeList (info : AUPHeaderInfo) : List (List Nat) :=
  match info.parsedHeader with
  | some h =>
    if info.isLegal ∧ h.headerData.swEntries.isSome then
      (h.headerData.swEntries.getD []).map (fun s => trimBytes (stripNulBytes s))
    else []
  | none => []

/-- Model of `AUPHeaderInfo.payloadLen()` (`|| 0`). -/
def payloadLenOf (h : AupHeader) : Nat :=
  h.headerData.payloadLen.getD 0

/-- Model of `AUPHeaderInfo.payloadCrc()` (`|| 0`). -/
def payloadCrcOf (h : AupHeader) : Nat :=
  h.headerData.payloadCrc.getD 0

/-- Model of `AUPHeaderInfo.totalLen()`: on-disk header length by format
version (92 for v0, 224 for v1, `100 + 32*(hwCount+swCount) + 4` for v2,
0 otherwise). -/
def totalLen (h : AupHeader) : Nat :=
  if h.fmtVer = 0 then 92
  else if h.fmtVer = 1 then 224
  else if h.fmtVer = 2 then
    100 + 32 * (h.headerData.hwListCount.getD 0 + h.headerData.swListCount.getD 0) + 4
  else 0

end AUPHeaderInfo

namespace AUPFile

open AUPHeaderInfo

/-- The version-0 branch of `AUPFile.generateAupHeaderPayload`: a fresh
92-byte buffer (uninitialized contents `junk`) with magic, format version
0, payload length, padded firmware version and payload CRC written in. -/
def genV0 (h : AupHeader) (junk : Nat → Nat) : List Nat :=
  let b1 := writeAt junk 0 (magicOf h)
  let b2 := writeAt b1 16 (u32le 0)
  let b3 := writeAt b2 20 (u32le (payloadLenOf h))
  let b4 := writeAt b3 24 (padZeros 64 (firmwareVerOf h))
  let b5 := writeAt b4 88 (u32le (payloadCrcOf h))
  bufToList b5 92

/-- Write the hardware/software entries of a version-2 header, 32 bytes
each, NUL-padded, starting at `off`. -/
def writeEntries (buf : Nat → Nat) (off : Nat) : List (List Nat) → (Nat → Nat)
  | [] => buf
  | e :: rest => writeEntries (writeAt buf off (padZeros 32 e)) (off + 32) rest

/-- The version-2 branch of `AUPFile.generateAupHeaderPayload`: synthesize
a version-2 header with default single-entry hardware/software lists when
the source carried none, then compute and append the trailing CRC-32 over
everything written before it. -/
def genV2 (info : AUPHeaderInfo) (h : AupHeader) (junk : Nat → Nat) : List Nat :=
  let hwL := if info.supportedHwtypeList = [] then [asciiBytes "MM3v1_X3"]
             else info.supportedHwtypeList
  let swL := if allSupportedSwtypeList info = [] then [asciiBytes "MM310"]
             else allSupportedSwtypeList info
  let headerLen := 100 + (hwL.length + swL.length) * 32 + 4
  let b1 := writeAt junk 0 (magicOf h)
  let b2 := writeAt b1 16 (u32le 2)
  let b3 := writeAt b2 20 (u32le (payloadLenOf h))
  let b4 := writeAt b3 24 (padZeros 64 (firmwareVerOf h))
  let b5 := writeAt b4 88 (u32le (payloadCrcOf h))
  let b6 := writeAt b5 92 (u32le hwL.length)
  let b7 := writeAt b6 96 (u32le swL.length)
  let b8 := writeEntries b7 100 (hwL ++ swL)
  let crc := crc32 (bufToList b8 (headerLen - 4))
  let b9 := writeAt b8 (headerLen - 4) (u32le crc)
  bufToList b9 headerLen

/-- Model of `AUPFile.generateAupHeaderPayload(targetAupVer)` on the raw
file bytes.  When parsing threw (`parsedHeader` is null), the
`aupHeaderBinary()` fallback dereferences the null parsed header inside
`totalLen()` and throws `TypeError`; the model returns `none` there. -/
def generateAupHeaderPayload (bs : List Nat) (targetAupVer : Nat)
    (junk : Nat → Nat) : Option (List Nat) :=
  let info := AUPHeaderInfo.mk_ bs
  match info.parsedHeader with
  | none => none
  | some h =>
    if ¬ info.isLegal then some (bs.take (totalLen h))
    else if targetAupVer = h.fmtVer then some (bs.take (totalLen h))
    else if targetAupVer = 0 then some (genV0 h junk)
    else if targetAupVer = 2 then some (genV2 info h junk)
    else some (bs.take (totalLen h))

end AUPFile

/-- A concrete 92-byte version-0 AUP file used as evaluation input:
magic, version 0, payload length 5, firmware version "1.0", payload CRC 7. -/
def sampleV0 : List Nat :=
  aupMagicBytes ++ List.replicate 6 0 ++ u32le 0 ++ u32le 5 ++
  (asciiBytes "1.0" ++ List.replicate 61 0) ++ u32le 7

/-- The header parsed from `sampleV0`. -/
def sampleV0Hdr : AupHeader :=
  ⟨aupMagicBytes, 0,
   { payloadLen := some 5, firmwareVer := some (asciiBytes "1.0"),
     payloadCrc := some 7 }⟩

/-- A concrete 104-byte version-2 AUP file whose trailing 4 CRC bytes are
all zero (and therefore do not match the CRC-32 of the first 100 bytes). -/
def cexV2 : List Nat :=
  aupMagicBytes ++ List.replicate 6 0 ++ u32le 2 ++ u32le 1 ++
  List.replicate 64 0 ++ u32le 0 ++ u32le 0 ++ u32le 0 ++ u32le 0

/-- The first 100 bytes of `cexV2`, written as explicit 10-byte chunks so
the CRC-32 can be evaluated chunk by chunk in proofs. -/
def cexPre : List Nat :=
  [65,85,80,32,102,111,114,109,97,116] ++ ([0,0,0,0,0,0,2,0,0,0] ++ ([1,0,0,0,0,0,0,0,0,0] ++ ([0,0,0,0,0,0,0,0,0,0] ++ ([0,0,0,0,0,0,0,0,0,0] ++ ([0,0,0,0,0,0,0,0,0,0] ++ ([0,0,0,0,0,0,0,0,0,0] ++ ([0,0,0,0,0,0,0,0,0,0] ++ ([0,0,0,0,0,0,0,0,0,0] ++ ([0,0,0,0,0,0,0,0,0,0])))))))))

/-! ## Response model (`cg-miner-api.ts`, `CGMinerAPIResult`)

JavaScript strings handled by the transport are modelled as `List Char`.
`JSON.parse` is an external runtime primitive; it is modelled as a
parameter `p : JsParse` (an arbitrary parser that either returns a JSON
value or throws).  Exception propagation is modelled with `Except JsErr`:
a `.error` value is a thrown-and-uncaught JavaScript exception. -/

/-- Characters matched by `[\x00-\x1F\x7F]` (trailing control bytes). -/
def isCtrlChar (c : Char) : Bool :=
  c.toNat ≤ 31 || c.toNat = 127

/-- Characters treated as whitespace by JavaScript `trim`/`trimEnd`
(ECMAScript WhiteSpace and LineTerminator code points). -/
def isJsWsChar (c : Char) : Bool :=
  c.toNat = 9 || c.toNat = 10 || c.toNat = 11 || c.toNat = 12 || c.toNat = 13 ||
  c.toNat = 32 || c.toNat = 160 || c.toNat = 0x1680 ||
  (0x2000 ≤ c.toNat && c.toNat ≤ 0x200A) || c.toNat = 0x2028 || c.toNat = 0x2029 ||
  c.toNat = 0x202F || c.toNat = 0x205F || c.toNat = 0x3000 || c.toNat = 0xFEFF

/-- Drop the longest suffix whose characters satisfy `p`. -/
def dropEndWhile (p : Char → Bool) (l : List Char) : List Char :=
  (l.reverse.dropWhile p).reverse

/-- Model of `trimTrailingControlChars`: remove one trailing run of
control bytes (`replace(/[\x00-\x1F\x7F]+$/g, '')`), then `trimEnd()`. -/
def trimTrailingControlChars (s : List Char) : List Char :=
  dropEndWhile isJsWsChar (dropEndWhile isCtrlChar s)

/-- Characters matched by `[\x00-\x08\x0B\x0C\x0E-\x1F\x7F]`
(non-whitespace control characters). -/
def isNonWsCtrlChar (c : Char) : Bool :=
  c.toNat ≤ 8 || c.toNat = 11 || c.toNat = 12 ||
  (14 ≤ c.toNat && c.toNat ≤ 31) || c.toNat = 127

/-- Model of `sanitizeForJsonFallback`: remove NULs, remove non-whitespace
control characters, then `trim()` both ends. -/
def sanitizeForJsonFallback (s : List Char) : List Char :=
  let noNul := s.filter (fun c => c.toNat ≠ 0)
  let noCtrl := noNul.filter (fun c => ¬ isNonWsCtrlChar c)
  dropEndWhile isJsWsChar (noCtrl.dropWhile isJsWsChar)

/-- JSON values as produced by `JSON.parse`.  Numbers are modelled as
integers (every numeric field the claims touch — `When`, `Code`, counts —
is an integer in the source). -/
inductive Json where
  | null
  | bool (b : Bool)
  | num (n : Int)
  | str (s : String)
  | arr (elems : List Json)
  | obj (fields : List (String × Json))
deriving Repr

/-- Thrown JavaScript exceptions relevant to the response model:
`JSON.parse` syntax errors and `TypeError` (e.g. using the `in` operator
on a primitive). -/
inductive JsErr where
  | parseError
  | typeError
deriving DecidableEq, Repr

/-- The external JSON parser: returns a value or throws. -/
def JsParse : Type := List Char → Except JsErr Json

/-- Model of a JavaScript `try { x } catch { handler }`. -/
def jsTry {α : Type} (x : Except JsErr α) (handler : Except JsErr α) :
    Except JsErr α :=
  match x with
  | .ok a => .ok a
  | .error _ => handler

/-- Model of a `CGMinerAPIResult` instance.  `presetDict` is the
`_responseDict` field, non-null exactly when the constructor received an
already-parsed object (as `errorResult` does).  The `msg` diagnostic field
and the `JSON.stringify` round-trip of object responses are not modelled
(no claim concerns them). -/
structure CGMinerAPIResult where
  result : Bool
  scanTimestamp : Int
  response : List Char
  presetDict : Option Json
  tryTimes : Nat
deriving Repr

namespace CGMinerAPIResult

/-- The constructor on a string/Buffer response: trailing control bytes
are trimmed immediately, `_responseDict` stays null. -/
def ofText (result : Bool) (ts : Int) (text : List Char) (tryTimes : Nat) :
    CGMinerAPIResult :=
  { result := result, scanTimestamp := ts,
    response := trimTrailingControlChars text, presetDict := none,
    tryTimes := tryTimes }

/-- The constructor on an already-parsed object response:
`_responseDict` is preset. -/
def ofResponse (result : Bool) (ts : Int) (r : Json) (tryTimes : Nat) :
    CGMinerAPIResult :=
  { result := result, scanTimestamp := ts, response := [],
    presetDict := some r, tryTimes := tryTimes }

/-- Model of `CGMinerAPIResult.errorResult(when, msg, code)`: a synthetic
result with raw success flag `true`, zero attempts, and a single `STATUS`
entry with letter `E`.  `whenTs` is the caller-supplied timestamp and
`nowTs` the constructor's own `Date.now()/1000`.  The stored `Code` is
`str2int(String(code), 14)`, which is `code` itself for the integer codes
the source passes. -/
def errorResult (whenTs nowTs : Int) (msg : String) (code : Int) :
    CGMinerAPIResult :=
  ofResponse true nowTs
    (Json.obj
      [("STATUS", Json.arr [Json.obj
          [("STATUS", Json.str "E"), ("When", Json.num whenTs),
           ("Code", Json.num code), ("Msg", Json.str msg)]]),
       ("id", Json.num 1)])
    0

end CGMinerAPIResult

/-- The `ERR_CODE_CANCELLED` constant (`constants.ts`). -/
def ERR_CODE_CANCELLED : Int := 99999

/-- The `ERR_CODE_INVALID_INPUT` constant (`constants.ts`). -/
def ERR_CODE_INVALID_INPUT : Int := 99998

/-- Model of `canceledResult()`. -/
def canceledResult (whenTs nowTs : Int) : CGMinerAPIResult :=
  CGMinerAPIResult.errorResult whenTs nowTs "has been canceled" ERR_CODE_CANCELLED

/-- First-match field lookup in a parsed JSON object (objects produced by
`JSON.parse` have unique keys). -/
def lookupField (fields : List (String × Json)) (key : String) : Option Json :=
  match fields.find? (fun f => f.1 == key) with
  | some f => some f.2
  | none => none

/-- JavaScript truthiness of a JSON value. -/
def jsTruthy : Json → Bool
  | .null => false
  | .bool b => b
  | .num n => n ≠ 0
  | .str s => s ≠ ""
  | .arr _ => true
  | .obj _ => true

/-- Model of the JavaScript `key in value` operator: works on objects and
arrays, throws `TypeError` on primitives and `null`. -/
def jsHasKey (j : Json) (key : String) : Except JsErr Bool :=
  match j with
  | .obj fields => .ok (lookupField fields key).isSome
  | .arr _ => .ok false
  | _ => .error .typeError

/-- Model of optional-chained property access `value?.[key]`: field of an
object, `undefined` (`none`) otherwise; never throws. -/
def jsGetOpt (j : Json) (key : String) : Option Json :=
  match j with
  | .obj fields => lookupField fields key
  | _ => none

/-- Model of `CGMinerAPIResult.responseDict()`: return the preset dict if
any; otherwise, when the raw result succeeded and the response is
non-empty, parse with the two-stage cleanup (trailing-control trim first,
full sanitize on failure) inside try/catch; a parse result of JSON `null`
or a double failure both leave `{}`. -/
def responseDict (p : JsParse) (r : CGMinerAPIResult) : Except JsErr Json :=
  match r.presetDict with
  | some d => .ok d
  | none =>
    if r.result ∧ 0 < r.response.length then
      match jsTry (p (trimTrailingControlChars r.response))
              (p (sanitizeForJsonFallback r.response)) with
      | .ok Json.null => .ok (Json.obj [])
      | .ok j => .ok j
      | .error _ => .ok (Json.obj [])
    else .ok (Json.obj [])

/-- Model of `CGMinerAPIResult.statusDict()`: the first entry of a
non-empty `STATUS` array, else null (`none`).  The guard
`rd && KEY_STATUS in rd` uses the `in` operator, which throws `TypeError`
when the parsed payload is a truthy primitive. -/
def statusDict (p : JsParse) (r : CGMinerAPIResult) :
    Except JsErr (Option Json) :=
  match responseDict p r with
  | .error er => .error er
  | .ok rd =>
    if jsTruthy rd then
      match jsHasKey rd "STATUS" with
      | .error er => .error er
      | .ok true =>
        match jsGetOpt rd "STATUS" with
        | some (Json.arr (entry :: _)) => .ok (some entry)
        | _ => .ok none
      | .ok false => .ok none
    else .ok none

/-- Model of `CGMinerAPIResult.status()`.  On a status entry, the guarded
`statusDict.STATUS` access returns the raw field (Fatal when the access
throws, i.e. the entry is JSON `null`); with no entry, the payload decides:
a non-empty object/array is Success, anything else Fatal (`typeof` check),
except that `Object.keys(null)` would throw (unreachable: `responseDict`
never returns null). -/
def status (p : JsParse) (r : CGMinerAPIResult) : Except JsErr (Option Json) :=
  match statusDict p r with
  | .error er => .error er
  | .ok (some entry) =>
    match entry with
    | Json.null => .ok (some (Json.str "F"))
    | Json.obj fields => .ok (lookupField fields "STATUS")
    | _ => .ok none
  | .ok none =>
    match responseDict p r with
    | .error er => .error er
    | .ok rd =>
      match rd with
      | Json.obj fields =>
        .ok (if 0 < fields.length then some (Json.str "S") else some (Json.str "F"))
      | Json.arr elems =>
        .ok (if 0 < elems.length then some (Json.str "S") else some (Json.str "F"))
      | Json.null => .error .typeError
      | _ => .ok (some (Json.str "F"))

/-- Model of `CGMinerAPIResult.isRequestSuccess()`: requires the raw
success flag and a Success/Informational status letter. -/
def isRequestSuccess (p : JsParse) (r : CGMinerAPIResult) : Except JsErr Bool :=
  if r.result then
    match status p r with
    | .error er => .error er
    | .ok (some (Json.str s)) => .ok (s == "S" || s == "I")
    | .ok _ => .ok false
  else .ok false

/-- Model of `CGMinerAPIResult.statusCode()`: `statusDict()?.[KEY_Code]`. -/
def statusCode (p : JsParse) (r : CGMinerAPIResult) :
    Except JsErr (Option Json) :=
  match statusDict p r with
  | .error er => .error er
  | .ok (some entry) => .ok (jsGetOpt entry "Code")
  | .ok none => .ok none

/-- Model of `CGMinerAPIResult.successResponseDict(payloadKey)`: the named
payload array when the request succeeded and the key holds an array, null
(`none`) otherwise. -/
def successResponseDict (p : JsParse) (r : CGMinerAPIResult)
    (payloadKey : String) : Except JsErr (Option (List Json)) :=
  match isRequestSuccess p r with
  | .error er => .error er
  | .ok true =>
    match responseDict p r with
    | .error er => .error er
    | .ok rd =>
      match jsHasKey rd payloadKey with
      | .error er => .error er
      | .ok true =>
        match jsGetOpt rd payloadKey with
        | some (Json.arr elems) => .ok (some elems)
        | _ => .ok none
      | .ok false => .ok none
  | .ok false => .ok none

/-! ## Transport (`cg-miner-api.ts`, `aioRequestCgminerApiBySock`) -/

/-- Model of JavaScript `String.prototype.split('.')`: split on dots,
keeping empty segments. -/
def splitOnDot : List Char → List (List Char)
  | [] => [[]]
  | c :: rest =>
    if c = '.' then [] :: splitOnDot rest
    else
      match splitOnDot rest with
      | g :: gs => (c :: g) :: gs
      | [] => [[c]]

/-- Decimal value of an all-digit character group (what `parseInt(p, 10)`
returns on the groups that pass the IPv4 regex). -/
def decValue (g : List Char) : Nat :=
  g.foldl (fun a c => 10 * a + (c.toNat - 48)) 0

/-- Model of the regex test `^(\d{1,3}\.){3}\d{1,3}$` in `validateIP`:
exactly four dot-separated groups of one to three digits.  (A string
matches the regex iff its dot-split has exactly this shape.) -/
def ipv4RegexTest (s : List Char) : Bool :=
  (splitOnDot s).length == 4 &&
  (splitOnDot s).all
    (fun g => decide (1 ≤ g.length) && decide (g.length ≤ 3) && g.all Char.isDigit)

/-- Model of `validateIP` (`utils.ts`): the regex test, the re-check of
the part count, and the per-part `parseInt` range check.  The value check
only runs on groups that passed the regex (short-circuit `&&`), where
`parseInt` is exactly the decimal value and never NaN. -/
def validateIP (s : List Char) : Bool :=
  ipv4RegexTest s && (splitOnDot s).length == 4 &&
  (splitOnDot s).all (fun g => decide (decValue g ≤ 255))

/-- Model of `validatePort` (`utils.ts`): an integer in [1, 65535].  Ports
are modelled as integers; `Number.isInteger` rules out the non-integral
JavaScript numbers that the model cannot represent. -/
def validatePort (port : Int) : Bool :=
  decide (1 ≤ port) && decide (port ≤ 65535)

/-- The `MAX_UNLIMITED_RETRIES` constant (`cg-miner-api.ts`). -/
def MAX_UNLIMITED_RETRIES : Nat := 10

/-- The `MAX_PARAM_LENGTH` constant (`cg-miner-api.ts`, 8 KiB). -/
def MAX_PARAM_LENGTH : Nat := 8192

/-- The observable outcome of one connection attempt.  The in-attempt
socket interaction (connect, write, chunked reads) is abstracted into the
outcome the attempt's try/catch sees: success, `ECONNREFUSED`,
`ECONNRESET`, any other error, or a mid-attempt total-timeout throw. -/
inductive AttemptOutcome where
  | ok
  | refused
  | reset
  | genericErr
  | midTimeout
deriving DecidableEq, Repr

/-- The environment of one transport invocation: the cancellation token's
state at each poll point (poll 0 is the pre-loop check, poll `i + 1` the
check at the top of iteration `i`), the pre-attempt total-timeout check per
iteration, each attempt's outcome, and the accumulated response text of
the successful attempt. -/
structure TransportEnv where
  cancelAt : Nat → Bool
  timedOutAt : Nat → Bool
  outcomeAt : Nat → AttemptOutcome
  responseText : List Char

/-- The loop-carried state of `aioRequestCgminerApiBySock`. -/
structure LoopState where
  tryTimes : Nat
  unlimitedRetryCount : Nat
  success : Bool
  totalTimeoutErr : Bool
deriving DecidableEq, Repr

/-- How the retry loop ends: an immediate cancelled return, or fall-through
with the final loop state. -/
inductive LoopExit where
  | canceled
  | finished (st : LoopState)
deriving DecidableEq, Repr

/-- Model of the retry loop of `aioRequestCgminerApiBySock`: the `while`
guard, the cancellation poll, the `MAX_UNLIMITED_RETRIES` break, the total
timeout check, then one attempt; `tryTimes` is incremented before the
attempt, and `unlimitedRetryCount` grows on refused (when
`autoRetryIfRefusedConn`) and reset connections only. -/
def apiLoop (retry : Nat) (autoRetryIfRefusedConn : Bool) (env : TransportEnv)
    (st : LoopState) : LoopExit :=
  if h1 : st.success ∨ st.totalTimeoutErr ∨
      ¬ (st.tryTimes ≤ retry + st.unlimitedRetryCount) then
    .finished st
  else if env.cancelAt (st.tryTimes + 1) then
    .canceled
  else if h2 : MAX_UNLIMITED_RETRIES ≤ st.unlimitedRetryCount then
    .finished st
  else if env.timedOutAt st.tryTimes then
    .finished { st with totalTimeoutErr := true }
  else
    match env.outcomeAt st.tryTimes with
    | .ok =>
      apiLoop retry autoRetryIfRefusedConn env
        { st with tryTimes := st.tryTimes + 1, success := true }
    | .refused =>
      apiLoop retry autoRetryIfRefusedConn env
        { st with
          tryTimes := st.tryTimes + 1
          unlimitedRetryCount :=
            (if autoRetryIfRefusedConn then st.unlimitedRetryCount + 1
             else st.unlimitedRetryCount) }
    | .reset =>
      apiLoop retry autoRetryIfRefusedConn env
        { st with
          tryTimes := st.tryTimes + 1
          unlimitedRetryCount := st.unlimitedRetryCount + 1 }
    | .genericErr =>
      apiLoop retry autoRetryIfRefusedConn env
        { st with tryTimes := st.tryTimes + 1 }
    | .midTimeout =>
      apiLoop retry autoRetryIfRefusedConn env
        { st with tryTimes := st.tryTimes + 1, totalTimeoutErr := true }
termination_by retry + MAX_UNLIMITED_RETRIES + 1 - st.tryTimes
decreasing_by
  all_goals
    rcases not_or.mp h1 with ⟨-, h1b⟩
    rcases not_or.mp h1b with ⟨-, h1c⟩
    have hle : st.tryTimes ≤ retry + st.unlimitedRetryCount := not_not.mp h1c
    simp only [MAX_UNLIMITED_RETRIES, not_le] at h2 ⊢
    omega

/-- Model of `aioRequestCgminerApiBySock`: input validation (IP, port,
parameter length) before any I/O, the pre-loop cancellation check, then
the retry loop; the result carries the loop's final `tryTimes`, with
`canceledResult()` (attempt count 0) on cancellation.  `now` stands for
the wall-clock timestamps (`Date.now()/1000`). -/
def aioRequestCgminerApiBySock (ip : List Char) (port : Int) (params : List Char)
    (retry : Nat) (autoRetryIfRefusedConn : Bool) (env : TransportEnv)
    (now : Int) : CGMinerAPIResult :=
  if ¬ validateIP ip then
    CGMinerAPIResult.errorResult now now "Invalid IP address format"
      ERR_CODE_INVALID_INPUT
  else if ¬ validatePort port then
    CGMinerAPIResult.errorResult now now "Invalid port number (must be 1-65535)"
      ERR_CODE_INVALID_INPUT
  else if MAX_PARAM_LENGTH < params.length then
    CGMinerAPIResult.errorResult now now "Parameter too long"
      ERR_CODE_INVALID_INPUT
  else if env.cancelAt 0 then
    canceledResult now now
  else
    match apiLoop retry autoRetryIfRefusedConn env ⟨0, 0, false, false⟩ with
    | .canceled => canceledResult now now
    | .finished st =>
      CGMinerAPIResult.ofText st.success now
        (if st.success then env.responseText else []) st.tryTimes

/-! ## Response-completion heuristic (`hasCompleteResponse`) -/

/-- The brace-counting loop of `hasCompleteResponse`, with the running
open-brace count, the in-string and escape flags, and the character index
(the source requires `i > 0` at the closing brace). -/
def braceLoop : List Char → Int → Bool → Bool → Nat → Bool
  | [], _, _, _, _ => false
  | c :: rest, openBraces, inString, escapeNext, i =>
    if escapeNext then braceLoop rest openBraces inString false (i + 1)
    else if c = '\\' then braceLoop rest openBraces inString true (i + 1)
    else if c = '"' then braceLoop rest openBraces (!inString) false (i + 1)
    else if inString = false ∧ c = '{' then
      braceLoop rest (openBraces + 1) inString false (i + 1)
    else if inString = false ∧ c = '}' then
      if openBraces - 1 = 0 ∧ 0 < i then true
      else braceLoop rest (openBraces - 1) inString false (i + 1)
    else braceLoop rest openBraces inString false (i + 1)

/-- Model of the transport's `hasCompleteResponse` helper: a NUL byte
anywhere, or the brace-counting heuristic. -/
def hasCompleteResponse (s : List Char) : Bool :=
  if s.contains (Char.ofNat 0) then true
  else braceLoop s 0 false false 0

/-- The top-level brace characters of a string: the `{`/`}` occurrences
outside double-quoted strings, honoring backslash escapes (the same
string-skipping automaton the source loop uses). -/
def topLevelBraces : List Char → Bool → Bool → List Char
  | [], _, _ => []
  | c :: rest, inString, escapeNext =>
    if escapeNext then topLevelBraces rest inString false
    else if c = '\\' then topLevelBraces rest inString true
    else if c = '"' then topLevelBraces rest (!inString) false
    else if inString = false ∧ (c = '{' ∨ c = '}') then
      c :: topLevelBraces rest inString false
    else topLevelBraces rest inString false

/-- Signed brace count of a brace sequence: `{` is +1, `}` is −1. -/
def sumB : List Char → Int
  | [] => 0
  | c :: rest => (if c = '{' then 1 else if c = '}' then -1 else 0) + sumB rest

/-- Balanced brace sequences (the Dyck language over `{`/`}`): the brace
skeletons of syntactically complete JSON objects. -/
inductive BalancedBraces : List Char → Prop where
  | nil : BalancedBraces []
  | wrap {m : List Char} : BalancedBraces m → BalancedBraces ('{' :: m ++ ['}'])
  | append {a b : List Char} :
      BalancedBraces a → BalancedBraces b → BalancedBraces (a ++ b)

/-- The claim-side reading of the completion heuristic: the top-level
brace sequence contains a (non-empty) balanced brace block — i.e. the text
contains a balanced top-level JSON object under brace counting that skips
quoted strings and honors escapes. -/
def ContainsBalancedObject (w : List Char) : Prop :=
  ∃ p m q, w = p ++ m ++ q ∧ m ≠ [] ∧ BalancedBraces m

/-! ## Upgrade orchestrator (spec-modelled)

The upgrade orchestrator module (`aio-upgrade.ts`, imported by
`upgrade.ts`, `cli.ts` and `index.ts`) is not among the repository sources
available under `src/`; the definitions below are modelled from the
specification instead (spec sections 3, 4.4 and 8). -/

/-- Modelled from the spec: the closed set of terminal results of the
upgrade orchestrator (`aio-upgrade.ts` is missing from the sources). -/
inductive UpgradeResults where
  | Success
  | AlreadyUpgraded
  | NoPrevVersion
  | RebootTimeout
  | UpgradeTimeout
  | UnexpectedError
  | UnexpectedFinalVersion
  | OutOfMemory
  | HardwareMismatch
  | SoftwareMismatch
  | Cancelled
  | ApiVersionMismatch
  | InvalidHeader
  | FileSizeMismatch
  | PayloadError
  | AupError
deriving DecidableEq, Repr

/-- Modelled from the spec: the per-session transfer-loop state of the
upgrade orchestrator that the offset/uid invariant concerns — current byte
offset, session uid, current page length (`aio-upgrade.ts` is missing from
the sources; page-length adaptation on invalid-JSON errors is kept
abstract, it never changes offset or uid). -/
structure TransferState where
  offset : Nat
  uid : Nat
  pageLen : Nat
deriving DecidableEq, Repr

/-- Modelled from the spec: the device's reply to one page command —
success, the recoverable offset-mismatch error declaring the expected
offset, a generic invalid-JSON error (retried at the same offset), or a
terminal device error. -/
inductive PageReply where
  | ok
  | errOffset (expected : Nat)
  | invalidJson
  | fatal (r : UpgradeResults)
deriving DecidableEq, Repr

/-- Modelled from the spec: uid rotation on a restart from offset 0 —
a fresh random value, re-drawn so it differs from the previous uid. -/
def rotateUid (old rnd : Nat) : Nat :=
  if rnd = old then rnd + 1 else rnd

/-- Modelled from the spec: one transition of the transfer loop.  On
success the offset advances by the page length; on `UPGRADE_ERR_OFFSET`
the offset is reset to the device-declared expected offset, rotating the
uid if that offset is 0; invalid-JSON replies retry the same offset;
terminal errors end the loop (no further page command). -/
def transferStep (s : TransferState) (reply : PageReply) (rnd : Nat) :
    Option TransferState :=
  match reply with
  | .ok => some { s with offset := s.offset + s.pageLen }
  | .errOffset expected =>
    some { s with
           offset := expected
           uid := (if expected = 0 then rotateUid s.uid rnd else s.uid) }
  | .invalidJson => some s
  | .fatal _ => none

/-- Modelled from the spec: the states in which successive page commands
are issued, given the device's replies (and the random draws used for uid
rotation). -/
def transferTrace (s : TransferState) : List (PageReply × Nat) → List TransferState
  | [] => [s]
  | (reply, rnd) :: rest =>
    match transferStep s reply rnd with
    | some s2 => s :: transferTrace s2 rest
    | none => [s]

/-- Claim-side definition (spec wording, for the refinement claim about
input validation): one group of a dotted-quad IPv4 literal — a non-empty
run of at most three decimal digits with value at most 255. -/
def IsIPv4Group (g : List Char) : Prop :=
  g ≠ [] ∧ g.length ≤ 3 ∧ (∀ c ∈ g, c.isDigit) ∧ decValue g ≤ 255

/-- Claim-side definition (spec wording): a syntactically valid IPv4
literal — four dot-separated decimal groups, each in range. -/
def IsIPv4Literal (s : List Char) : Prop :=
  ∃ g1 g2 g3 g4,
    s = g1 ++ '.' :: (g2 ++ '.' :: (g3 ++ '.' :: g4)) ∧
    IsIPv4Group g1 ∧ IsIPv4Group g2 ∧ IsIPv4Group g3 ∧ IsIPv4Group g4

/-- Join character groups with dots (left inverse of `splitOnDot`). -/
def joinDots : List (List Char) → List Char
  | [] => []
  | [g] => g
  | g :: gs => g ++ '.' :: joinDots gs

/-- A transport environment whose every attempt fails with a generic
(non-transient) error and that is never cancelled or timed out. -/
def envAllGenericErr : TransportEnv :=
  ⟨fun _ => false, fun _ => false, fun _ => AttemptOutcome.genericErr, []⟩

/-- A transport environment whose cancellation token is already aborted. -/
def envCancelled : TransportEnv :=
  ⟨fun _ => true, fun _ => false, fun _ => AttemptOutcome.ok, []⟩

/-- A raw response whose device reply was the bare JSON number `5`
followed by a NUL terminator (the constructor trims the NUL). -/
def numericReplyResult : CGMinerAPIResult :=
  CGMinerAPIResult.ofText true 0 ['5', Char.ofNat 0] 1

/-- A concrete JSON parser used to instantiate parser-parametric theorems:
parses the single text `5` to the JSON number 5 and rejects all else. -/
def parseOnlyFive : JsParse :=
  fun s => if s = ['5'] then .ok (Json.num 5) else .error JsErr.parseError

/-- Fields of a parsed payload carrying a one-entry `STATUS` array with
letter `S` and an empty `SUMMARY` array. -/
def sampleStatusFields : List (String × Json) :=
  [("STATUS", Json.arr [Json.obj [("STATUS", Json.str "S"), ("Code", Json.num 11)]]),
   ("SUMMARY", Json.arr [])]

/-- A result constructed from a payload with a `STATUS` entry. -/
def sampleStatusResult : CGMinerAPIResult :=
  CGMinerAPIResult.ofResponse true 0 (Json.obj sampleStatusFields) 1

/-- Fields of a non-empty parsed payload with no `STATUS` key. -/
def sampleNoStatusFields : List (String × Json) :=
  [("SUMMARY", Json.arr [])]

/-- A result constructed from a non-empty payload without `STATUS`. -/
def sampleNoStatusResult : CGMinerAPIResult :=
  CGMinerAPIResult.ofResponse true 0 (Json.obj sampleNoStatusFields) 1

/-- A successful raw result whose text does not parse (any parser that
rejects `x` leaves the payload as the empty mapping). -/
def sampleUnparsedResult : CGMinerAPIResult :=
  CGMinerAPIResult.ofText true 0 ['x'] 1

/-- A concrete JSON parser that rejects every input. -/
def parseNothing : JsParse :=
  fun _ => .error JsErr.parseError

/-! ## Lemmas about buffers -/

theorem bufToList_length (f : Nat → Nat) (n : Nat) : (bufToList f n).length = n := by
  simp [bufToList]

theorem bufToList_take (f : Nat → Nat) {k n : Nat} (h : k ≤ n) :
    (bufToList f n).take k = bufToList f k := by
  simp [bufToList, ← List.map_take, List.take_range, Nat.min_eq_left h]

theorem bufToList_congr (f g : Nat → Nat) (n : Nat) (h : ∀ i < n, f i = g i) :
    bufToList f n = bufToList g n := by
  unfold bufToList
  exact List.map_congr_left (fun a ha => h a (List.mem_range.mp ha))

theorem bufToList_add (f : Nat → Nat) (n k : Nat) :
    bufToList f (n + k) = bufToList f n ++ (List.range k).map (fun j => f (n + j)) := by
  simp [bufToList, List.range_add, Function.comp]

theorem writeAt_eval_lt (f : Nat → Nat) (off : Nat) (d : List Nat) {i : Nat}
    (h : i < off) : writeAt f off d i = f i := by
  unfold writeAt
  rw [if_neg (by omega)]

theorem writeAt_eval_at (f : Nat → Nat) (off : Nat) (d : List Nat) {j : Nat}
    (h : j < d.length) : writeAt f off d (off + j) = d.getD j 0 := by
  unfold writeAt
  rw [if_pos (by omega), Nat.add_sub_cancel_left]

/-- Writing the CRC-32 of the first `H - 4` extracted bytes of a buffer at
position `H - 4` and then extracting `H` bytes yields output whose final 4
bytes are the CRC-32 of everything preceding them. -/
theorem crcTailAux (B : Nat → Nat) (H : Nat) (h4 : 4 ≤ H) :
    4 ≤ (bufToList (writeAt B (H - 4) (u32le (crc32 (bufToList B (H - 4))))) H).length ∧
    (bufToList (writeAt B (H - 4) (u32le (crc32 (bufToList B (H - 4))))) H).drop
        ((bufToList (writeAt B (H - 4) (u32le (crc32 (bufToList B (H - 4))))) H).length - 4) =
      u32le (crc32
        ((bufToList (writeAt B (H - 4) (u32le (crc32 (bufToList B (H - 4))))) H).take
          ((bufToList (writeAt B (H - 4) (u32le (crc32 (bufToList B (H - 4))))) H).length - 4))) := by
  set M := H - 4 with hM
  set c := crc32 (bufToList B M) with hc
  have hH : H = M + 4 := by omega
  have hsplit : bufToList (writeAt B M (u32le c)) H = bufToList B M ++ u32le c := by
    rw [hH, bufToList_add]
    congr 1
    · exact bufToList_congr _ _ _ (fun i hi => writeAt_eval_lt _ _ _ hi)
    · have h0 : writeAt B M (u32le c) (M + 0) = (u32le c).getD 0 0 :=
        writeAt_eval_at _ _ _ (by simp [u32le])
      have h1 : writeAt B M (u32le c) (M + 1) = (u32le c).getD 1 0 :=
        writeAt_eval_at _ _ _ (by simp [u32le])
      have h2 : writeAt B M (u32le c) (M + 2) = (u32le c).getD 2 0 :=
        writeAt_eval_at _ _ _ (by simp [u32le])
      have h3 : writeAt B M (u32le c) (M + 3) = (u32le c).getD 3 0 :=
        writeAt_eval_at _ _ _ (by simp [u32le])
      rw [show List.range 4 = [0, 1, 2, 3] from rfl]
      simp only [List.map_cons, List.map_nil, h0, h1, h2, h3]
      simp [u32le]
  rw [hsplit]
  have hblen : (bufToList B M).length = M := bufToList_length B M
  have hlen : (bufToList B M ++ u32le c).length = M + 4 := by
    simp [bufToList_length, u32le]
  rw [hlen]
  have hm4 : M + 4 - 4 = M := by omega
  rw [hm4]
  refine ⟨by omega, ?_⟩
  rw [List.drop_left' hblen, List.take_left' hblen]

/-- The version-2 serializer writes the CRC as the final 4 bytes, computed
over everything written before it: the core content of the trailing-CRC
claim. -/
theorem genV2_trailing_crc (info : AUPHeaderInfo) (h : AupHeader) (junk : Nat → Nat) :
    4 ≤ (AUPFile.genV2 info h junk).length ∧
    (AUPFile.genV2 info h junk).drop ((AUPFile.genV2 info h junk).length - 4) =
      u32le (crc32 ((AUPFile.genV2 info h junk).take
        ((AUPFile.genV2 info h junk).length - 4))) := by
  simp only [AUPFile.genV2]
  exact crcTailAux _ _ (by omega)


/-- Claim C5 (amended form): whenever the source header parsed legally and
its format version is not already 2, `generateAupHeaderPayload(2)` emits a
freshly synthesized header whose final 4 bytes are the CRC-32 of all the
bytes preceding them. -/
theorem c5_v2_serialization_crc (bs : List Nat) (junk : Nat → Nat) (h : AupHeader)
    (hp : (AUPHeaderInfo.mk_ bs).parsedHeader = some h)
    (hl : (AUPHeaderInfo.mk_ bs).isLegal = true)
    (hv : h.fmtVer ≠ 2) :
    ∃ out, AUPFile.generateAupHeaderPayload bs 2 junk = some out ∧ 4 ≤ out.length ∧
      out.drop (out.length - 4) = u32le (crc32 (out.take (out.length - 4))) := by
  refine ⟨AUPFile.genV2 (AUPHeaderInfo.mk_ bs) h junk, ?_, ?_, ?_⟩
  · simp only [AUPFile.generateAupHeaderPayload, hp]
    rw [if_neg (fun hc => hc hl), if_neg (fun he => hv he.symm)]
    simp
  · exact (genV2_trailing_crc _ h junk).1
  · exact (genV2_trailing_crc _ h junk).2

theorem foldl_crc_chunk (a a2 : Nat) (c l : List Nat)
    (h : List.foldl crc32Byte a c = a2) :
    List.foldl crc32Byte a (c ++ l) = List.foldl crc32Byte a2 l := by
  rw [List.foldl_append, h]

set_option maxRecDepth 3000 in
theorem crc32_cexPre : crc32 cexPre = 3457825518 := by
  rw [crc32, cexPre]
  rw [foldl_crc_chunk 4294967295 2687231496 [65,85,80,32,102,111,114,109,97,116] _ (by decide)]
  rw [foldl_crc_chunk 2687231496 323345776 [0,0,0,0,0,0,2,0,0,0] _ (by decide)]
  rw [foldl_crc_chunk 323345776 3414688274 [1,0,0,0,0,0,0,0,0,0] _ (by decide)]
  rw [foldl_crc_chunk 3414688274 1130966093 [0,0,0,0,0,0,0,0,0,0] _ (by decide)]
  rw [foldl_crc_chunk 1130966093 3049662931 [0,0,0,0,0,0,0,0,0,0] _ (by decide)]
  rw [foldl_crc_chunk 3049662931 1425026565 [0,0,0,0,0,0,0,0,0,0] _ (by decide)]
  rw [foldl_crc_chunk 1425026565 2230012827 [0,0,0,0,0,0,0,0,0,0] _ (by decide)]
  rw [foldl_crc_chunk 2230012827 3345946898 [0,0,0,0,0,0,0,0,0,0] _ (by decide)]
  rw [foldl_crc_chunk 3345946898 592033517 [0,0,0,0,0,0,0,0,0,0] _ (by decide)]
  rw [show List.foldl crc32Byte 592033517 [0,0,0,0,0,0,0,0,0,0] = 837141777 from by decide]
  decide

set_option maxRecDepth 4000 in
/-- Claim C5 counterexample to the unrestricted statement: a legal
version-2 input file whose stored trailing CRC is wrong is passed through
unchanged by `generateAupHeaderPayload(2)`, so the emitted header's final
4 bytes do not match the CRC-32 of the preceding bytes. -/
theorem c5_crc_counterexample :
    AUPFile.generateAupHeaderPayload cexV2 2 (fun _ => 0) = some cexV2 ∧
    cexV2.drop (cexV2.length - 4) ≠ u32le (crc32 (cexV2.take (cexV2.length - 4))) := by
  refine ⟨by decide, ?_⟩
  have htake : cexV2.take (cexV2.length - 4) = cexPre := by decide
  have hdrop : cexV2.drop (cexV2.length - 4) = [0, 0, 0, 0] := by decide
  rw [htake, hdrop, crc32_cexPre]
  decide

/-- Witness instantiating `c5_v2_serialization_crc` at the concrete
version-0 sample file. -/
theorem c5_v2_serialization_crc_witness :
    (AUPHeaderInfo.mk_ sampleV0).parsedHeader = some sampleV0Hdr ∧
    (AUPHeaderInfo.mk_ sampleV0).isLegal = true ∧ sampleV0Hdr.fmtVer ≠ 2 ∧
    ∃ out, AUPFile.generateAupHeaderPayload sampleV0 2 (fun _ => 171) = some out ∧
      4 ≤ out.length ∧
      out.drop (out.length - 4) = u32le (crc32 (out.take (out.length - 4))) :=
  ⟨by decide, by decide, by decide,
   c5_v2_serialization_crc sampleV0 (fun _ => 171) sampleV0Hdr
     (by decide) (by decide) (by decide)⟩

/-- Claim C4: re-serializing a parsed AUP header to the version it was
parsed from reproduces the original header bytes exactly — the output of
`generateAupHeaderPayload(v)` is the first `totalLen()` bytes of the file,
for all three header format versions. -/
theorem c4_roundtrip_same_version (bs : List Nat) (junk : Nat → Nat) (h : AupHeader)
    (hparse : AupHeader.fromBytes bs = some h) (_hver : h.fmtVer < 3) :
    AUPFile.generateAupHeaderPayload bs h.fmtVer junk =
      some (bs.take (AUPHeaderInfo.totalLen h)) := by
  have hmk : AUPHeaderInfo.mk_ bs =
      (if AUPHeaderInfo.magicOf h ≠ aupMagicBytes then ⟨some h, false, []⟩
       else
        let hacked : List (List Nat) :=
          if hackVersionList.contains (AUPHeaderInfo.firmwareVerOf h) then
            [asciiBytes "MM3v1_X3"] else []
        let supported : List (List Nat) :=
          if h.fmtVer = 1 then
            (h.headerData.hwComma.getD []).map (fun s => trimBytes (stripNulBytes s))
          else if h.fmtVer = 2 then
            (h.headerData.hwEntries.getD []).map (fun s => trimBytes (stripNulBytes s))
          else hacked
        ⟨some h, true, supported⟩) := by
    unfold AUPHeaderInfo.mk_
    rw [hparse]
  by_cases hmag : AUPHeaderInfo.magicOf h ≠ aupMagicBytes
  · unfold AUPFile.generateAupHeaderPayload
    rw [hmk, if_pos hmag]
    simp
  · unfold AUPFile.generateAupHeaderPayload
    rw [hmk, if_neg hmag]
    simp

/-- Witness instantiating `c4_roundtrip_same_version` at the concrete
version-0 sample file. -/
theorem c4_roundtrip_same_version_witness :
    AupHeader.fromBytes sampleV0 = some sampleV0Hdr ∧ sampleV0Hdr.fmtVer < 3 ∧
    AUPFile.generateAupHeaderPayload sampleV0 sampleV0Hdr.fmtVer (fun _ => 171) =
      some (sampleV0.take (AUPHeaderInfo.totalLen sampleV0Hdr)) :=
  ⟨by decide, by decide,
   c4_roundtrip_same_version sampleV0 (fun _ => 171) sampleV0Hdr (by decide) (by decide)⟩

/-! ## Theorems about the response model and transport -/

/-- Claim C10: every synthetic result built by
`CGMinerAPIResult.errorResult` carries a raw success flag of `true`
together with a `STATUS` entry whose letter is `E`, so
`isRequestSuccess()` is `false` for all such results even though the raw
flag reads `true`; the attempt count is 0. -/
theorem c10_error_result_semantics (whenTs nowTs : Int) (msg : String)
    (code : Int) (p : JsParse) :
    (CGMinerAPIResult.errorResult whenTs nowTs msg code).result = true ∧
    status p (CGMinerAPIResult.errorResult whenTs nowTs msg code) =
      .ok (some (Json.str "E")) ∧
    isRequestSuccess p (CGMinerAPIResult.errorResult whenTs nowTs msg code) =
      .ok false ∧
    (CGMinerAPIResult.errorResult whenTs nowTs msg code).tryTimes = 0 :=
  ⟨rfl, rfl, rfl, rfl⟩

/-- Claim C3 evaluated at its failing input: a device reply consisting of
the valid JSON text `5` followed by a NUL.  `responseDict()` itself parses
it without throwing, but `statusDict()` then evaluates
`'STATUS' in 5`, which throws `TypeError`, so `status()`,
`isRequestSuccess()` and every payload accessor raise instead of
returning a typed absent value. -/
theorem c3_accessors_throw_on_primitive_payload (p : JsParse)
    (hp : p ['5'] = .ok (Json.num 5)) :
    responseDict p numericReplyResult = .ok (Json.num 5) ∧
    statusDict p numericReplyResult = .error JsErr.typeError ∧
    isRequestSuccess p numericReplyResult = .error JsErr.typeError ∧
    successResponseDict p numericReplyResult "SUMMARY" = .error JsErr.typeError := by
  have hresp : numericReplyResult.response = ['5'] := by decide
  have htrim : trimTrailingControlChars numericReplyResult.response = ['5'] := by decide
  have hrd : responseDict p numericReplyResult = .ok (Json.num 5) := by
    unfold responseDict
    rw [show numericReplyResult.presetDict = none from rfl]
    rw [if_pos ⟨rfl, by rw [hresp]; decide⟩, htrim]
    rw [show jsTry (p ['5']) (p (sanitizeForJsonFallback numericReplyResult.response)) =
      .ok (Json.num 5) from by rw [hp]; rfl]
  have hsd : statusDict p numericReplyResult = .error JsErr.typeError := by
    unfold statusDict
    rw [hrd]
    rfl
  have hrs : isRequestSuccess p numericReplyResult = .error JsErr.typeError := by
    unfold isRequestSuccess
    rw [show numericReplyResult.result = true from rfl, if_pos rfl]
    unfold status
    rw [hsd]
  refine ⟨hrd, hsd, hrs, ?_⟩
  unfold successResponseDict
  rw [hrs]

/-- Witness instantiating `c3_accessors_throw_on_primitive_payload` with a
concrete parser that parses the text `5`. -/
theorem c3_accessors_throw_on_primitive_payload_witness :
    parseOnlyFive ['5'] = .ok (Json.num 5) ∧
    statusDict parseOnlyFive numericReplyResult = .error JsErr.typeError ∧
    successResponseDict parseOnlyFive numericReplyResult "SUMMARY" =
      .error JsErr.typeError := by
  have h := c3_accessors_throw_on_primitive_payload parseOnlyFive (by rfl)
  exact ⟨by rfl, h.2.1, h.2.2.2⟩

/-- Invariant of the retry loop: if the entering state already satisfies
the (amended) attempt bound and the unlimited-retry cap, so does any state
the loop finishes with. -/
theorem apiLoop_bound (retry : Nat) (autoRetry : Bool) (env : TransportEnv)
    (st : LoopState) :
    ∀ st2, st.tryTimes ≤ retry + st.unlimitedRetryCount + 1 →
      st.unlimitedRetryCount ≤ MAX_UNLIMITED_RETRIES →
      apiLoop retry autoRetry env st = .finished st2 →
      st2.tryTimes ≤ retry + st2.unlimitedRetryCount + 1 ∧
      st2.unlimitedRetryCount ≤ MAX_UNLIMITED_RETRIES := by
  induction st using apiLoop.induct retry autoRetry env with
  | case1 st h1 =>
    intro st2 hb1 hb2 hfin
    rw [apiLoop, dif_pos h1] at hfin
    cases hfin
    exact ⟨hb1, hb2⟩
  | case2 st h1 hc =>
    intro st2 _ _ hfin
    rw [apiLoop, dif_neg h1, if_pos hc] at hfin
    cases hfin
  | case3 st h1 hc h2 =>
    intro st2 hb1 hb2 hfin
    rw [apiLoop, dif_neg h1, if_neg hc, dif_pos h2] at hfin
    cases hfin
    exact ⟨hb1, hb2⟩
  | case4 st h1 hc h2 ht =>
    intro st2 hb1 hb2 hfin
    rw [apiLoop, dif_neg h1, if_neg hc, dif_neg h2, if_pos ht] at hfin
    cases hfin
    exact ⟨hb1, hb2⟩
  | case5 st h1 hc h2 ht houtcome ih =>
    intro st2 hb1 hb2 hfin
    rw [apiLoop, dif_neg h1, if_neg hc, dif_neg h2, if_neg ht, houtcome] at hfin
    have hle := not_not.mp (not_or.mp (not_or.mp h1).2).2
    refine ih st2 ?_ ?_ hfin <;> dsimp only <;> omega
  | case6 st h1 hc h2 ht houtcome ih =>
    intro st2 hb1 hb2 hfin
    rw [apiLoop, dif_neg h1, if_neg hc, dif_neg h2, if_neg ht, houtcome] at hfin
    have hle := not_not.mp (not_or.mp (not_or.mp h1).2).2
    simp only [not_le] at h2
    refine ih st2 ?_ ?_ hfin <;> dsimp only <;> split <;> omega
  | case7 st h1 hc h2 ht houtcome ih =>
    intro st2 hb1 hb2 hfin
    rw [apiLoop, dif_neg h1, if_neg hc, dif_neg h2, if_neg ht, houtcome] at hfin
    have hle := not_not.mp (not_or.mp (not_or.mp h1).2).2
    simp only [not_le] at h2
    refine ih st2 ?_ ?_ hfin <;> dsimp only <;> omega
  | case8 st h1 hc h2 ht houtcome ih =>
    intro st2 hb1 hb2 hfin
    rw [apiLoop, dif_neg h1, if_neg hc, dif_neg h2, if_neg ht, houtcome] at hfin
    have hle := not_not.mp (not_or.mp (not_or.mp h1).2).2
    refine ih st2 ?_ ?_ hfin <;> dsimp only <;> omega
  | case9 st h1 hc h2 ht houtcome ih =>
    intro st2 hb1 hb2 hfin
    rw [apiLoop, dif_neg h1, if_neg hc, dif_neg h2, if_neg ht, houtcome] at hfin
    have hle := not_not.mp (not_or.mp (not_or.mp h1).2).2
    refine ih st2 ?_ ?_ hfin <;> dsimp only <;> omega

/-- Claim C1 (amended): for every retry configuration, the retry loop of
`aioRequestCgminerApiBySock` finishes with an attempt count of at most
`retry + unlimitedRetryCount + 1` (the initial attempt plus the budgeted
retries), and `unlimitedRetryCount` never exceeds its hard cap
`MAX_UNLIMITED_RETRIES` (10). -/
theorem c1_attempt_bound (retry : Nat) (autoRetry : Bool) (env : TransportEnv)
    (st2 : LoopState)
    (hfin : apiLoop retry autoRetry env ⟨0, 0, false, false⟩ = .finished st2) :
    st2.tryTimes ≤ retry + st2.unlimitedRetryCount + 1 ∧
    st2.unlimitedRetryCount ≤ MAX_UNLIMITED_RETRIES :=
  apiLoop_bound retry autoRetry env ⟨0, 0, false, false⟩ st2
    (by dsimp only; omega) (by dsimp only [MAX_UNLIMITED_RETRIES]; omega) hfin

/-- Claim C1 counterexample as stated: with retry 0 and one failed
attempt, the loop finishes with `tryTimes = 1` while
`retry + unlimitedRetryCount = 0`, exceeding the claimed bound. -/
theorem c1_attempt_bound_counterexample :
    apiLoop 0 true envAllGenericErr ⟨0, 0, false, false⟩ =
      .finished ⟨1, 0, false, false⟩ ∧
    ¬ ((⟨1, 0, false, false⟩ : LoopState).tryTimes ≤
        0 + (⟨1, 0, false, false⟩ : LoopState).unlimitedRetryCount) := by
  constructor
  · simp [apiLoop, envAllGenericErr, MAX_UNLIMITED_RETRIES]
  · decide

/-- Witness instantiating `c1_attempt_bound` at a concrete run: retry 2,
every attempt failing generically, three attempts made. -/
theorem c1_attempt_bound_witness :
    apiLoop 2 true envAllGenericErr ⟨0, 0, false, false⟩ =
      .finished ⟨3, 0, false, false⟩ ∧
    (3 : Nat) ≤ 2 + 0 + 1 ∧ (0 : Nat) ≤ MAX_UNLIMITED_RETRIES := by
  have hfin : apiLoop 2 true envAllGenericErr ⟨0, 0, false, false⟩ =
      .finished ⟨3, 0, false, false⟩ := by
    simp [apiLoop, envAllGenericErr, MAX_UNLIMITED_RETRIES]
  have h := c1_attempt_bound 2 true envAllGenericErr ⟨3, 0, false, false⟩ hfin
  exact ⟨hfin, h.1, h.2⟩

/-- The dot-split of any string is non-empty. -/
theorem splitOnDot_ne_nil (s : List Char) : splitOnDot s ≠ [] := by
  induction s with
  | nil => simp [splitOnDot]
  | cons c rest ih =>
    unfold splitOnDot
    by_cases hc : c = '.'
    · simp [hc]
    · rw [if_neg hc]
      cases h : splitOnDot rest with
      | nil => simp
      | cons g gs => simp

/-- Joining the dot-split with dots recovers the original string. -/
theorem joinDots_splitOnDot (s : List Char) : joinDots (splitOnDot s) = s := by
  induction s with
  | nil => rfl
  | cons c rest ih =>
    unfold splitOnDot
    by_cases hc : c = '.'
    · rw [if_pos hc]
      cases h : splitOnDot rest with
      | nil => exact absurd h (splitOnDot_ne_nil rest)
      | cons g gs =>
        rw [h] at ih
        subst hc
        show joinDots ([] :: g :: gs) = '.' :: rest
        show [] ++ '.' :: joinDots (g :: gs) = '.' :: rest
        rw [List.nil_append, ih]
    · rw [if_neg hc]
      cases h : splitOnDot rest with
      | nil => exact absurd h (splitOnDot_ne_nil rest)
      | cons g gs =>
        rw [h] at ih
        cases gs with
        | nil =>
          show c :: g = c :: rest
          rw [show joinDots [g] = g from rfl] at ih
          rw [ih]
        | cons g2 gs2 =>
          show (c :: g) ++ '.' :: joinDots (g2 :: gs2) = c :: rest
          rw [show joinDots (g :: g2 :: gs2) = g ++ '.' :: joinDots (g2 :: gs2) from rfl] at ih
          rw [List.cons_append, ih]

/-- Splitting a dot-free group followed by a dot peels off the group. -/
theorem splitOnDot_append {g : List Char} (rest : List Char) (hg : '.' ∉ g) :
    splitOnDot (g ++ '.' :: rest) = g :: splitOnDot rest := by
  induction g with
  | nil => simp [splitOnDot]
  | cons c g2 ih =>
    have hc : c ≠ '.' := fun h => hg (h ▸ List.mem_cons_self c g2)
    have hg2 : '.' ∉ g2 := fun h => hg (List.mem_cons_of_mem c h)
    simp only [List.cons_append, splitOnDot, hc, if_false, List.append_eq, ih hg2]

/-- Splitting a dot-free string yields the single group. -/
theorem splitOnDot_no_dot {g : List Char} (hg : '.' ∉ g) :
    splitOnDot g = [g] := by
  induction g with
  | nil => rfl
  | cons c g2 ih =>
    have hc : c ≠ '.' := fun h => hg (h ▸ List.mem_cons_self c g2)
    have hg2 : '.' ∉ g2 := fun h => hg (List.mem_cons_of_mem c h)
    simp only [splitOnDot, hc, if_false, ih hg2]

/-- Digit characters are not dots. -/
theorem isDigit_ne_dot {c : Char} (hc : c.isDigit = true) : c ≠ '.' := by
  intro h
  subst h
  simp [Char.isDigit] at hc

/-- The source's `validateIP` accepts exactly the syntactically valid
dotted-quad IPv4 literals of the claim-side definition. -/
theorem validateIP_iff_IsIPv4Literal (s : List Char) :
    validateIP s = true ↔ IsIPv4Literal s := by
  constructor
  · intro hv
    simp only [validateIP, ipv4RegexTest, Bool.and_eq_true, beq_iff_eq,
      List.all_eq_true, decide_eq_true_eq] at hv
    obtain ⟨⟨⟨hlen, hgroups⟩, -⟩, hvals⟩ := hv
    have hjoin := joinDots_splitOnDot s
    cases h1 : splitOnDot s with
    | nil => exact absurd h1 (splitOnDot_ne_nil s)
    | cons a ps1 =>
    rw [h1] at hlen hgroups hvals hjoin
    cases ps1 with
    | nil => simp at hlen
    | cons b ps2 =>
    cases ps2 with
    | nil => simp at hlen
    | cons c ps3 =>
    cases ps3 with
    | nil => simp at hlen
    | cons d ps4 =>
    cases ps4 with
    | cons e ps5 => simp at hlen
    | nil =>
    have hgrp : ∀ g ∈ [a, b, c, d], IsIPv4Group g := by
      intro g hgm
      obtain ⟨⟨hl1, hl3⟩, hdig⟩ := hgroups g hgm
      refine ⟨?_, hl3, hdig, hvals g hgm⟩
      intro hnil
      subst hnil
      simp at hl1
    exact ⟨a, b, c, d, by rw [← hjoin]; rfl, hgrp a (by simp), hgrp b (by simp),
      hgrp c (by simp), hgrp d (by simp)⟩
  · rintro ⟨g1, g2, g3, g4, hs, hg1, hg2, hg3, hg4⟩
    have nodot : ∀ g : List Char, IsIPv4Group g → '.' ∉ g := by
      rintro g ⟨-, -, hdig, -⟩ hdot
      exact isDigit_ne_dot (hdig '.' hdot) rfl
    have hsplit : splitOnDot s = [g1, g2, g3, g4] := by
      rw [hs, splitOnDot_append _ (nodot g1 hg1),
        splitOnDot_append _ (nodot g2 hg2), splitOnDot_append _ (nodot g3 hg3),
        splitOnDot_no_dot (nodot g4 hg4)]
    simp only [validateIP, ipv4RegexTest, hsplit, Bool.and_eq_true, beq_iff_eq,
      List.all_eq_true, decide_eq_true_eq]
    refine ⟨⟨⟨rfl, ?_⟩, rfl⟩, ?_⟩
    · intro g hgm
      simp only [List.mem_cons, List.not_mem_nil, or_false] at hgm
      rcases hgm with h | h | h | h
      · subst h
        exact ⟨⟨List.length_pos.mpr hg1.1, hg1.2.1⟩, hg1.2.2.1⟩
      · subst h
        exact ⟨⟨List.length_pos.mpr hg2.1, hg2.2.1⟩, hg2.2.2.1⟩
      · subst h
        exact ⟨⟨List.length_pos.mpr hg3.1, hg3.2.1⟩, hg3.2.2.1⟩
      · subst h
        exact ⟨⟨List.length_pos.mpr hg4.1, hg4.2.1⟩, hg4.2.2.1⟩
    · intro g hgm
      simp only [List.mem_cons, List.not_mem_nil, or_false] at hgm
      rcases hgm with h | h | h | h
      · subst h
        exact hg1.2.2.2
      · subst h
        exact hg2.2.2.2
      · subst h
        exact hg3.2.2.2
      · subst h
        exact hg4.2.2.2

/-- Properties shared by every synthetic `errorResult`: zero attempts, raw
flag true, status letter E, the stored code, and overall request failure. -/
theorem errorResultProps (whenTs nowTs : Int) (msg : String) (code : Int)
    (p : JsParse) :
    (CGMinerAPIResult.errorResult whenTs nowTs msg code).tryTimes = 0 ∧
    (CGMinerAPIResult.errorResult whenTs nowTs msg code).result = true ∧
    status p (CGMinerAPIResult.errorResult whenTs nowTs msg code) =
      .ok (some (Json.str "E")) ∧
    statusCode p (CGMinerAPIResult.errorResult whenTs nowTs msg code) =
      .ok (some (Json.num code)) ∧
    isRequestSuccess p (CGMinerAPIResult.errorResult whenTs nowTs msg code) =
      .ok false :=
  ⟨rfl, rfl, rfl, rfl, rfl⟩

/-- Claim C7: when the device address is not a syntactically valid IPv4
literal, or the port lies outside [1, 65535], or the parameter string
exceeds 8192 characters, `aioRequestCgminerApiBySock` returns a synthetic
error result (status letter E, code `ERR_CODE_INVALID_INPUT`, raw flag
true, request failure) with zero attempts, and the outcome is identical
for every transport environment — no connection attempt is consulted. -/
theorem c7_input_validation_short_circuit (ip : List Char) (port : Int)
    (params : List Char) (retry : Nat) (autoRetry : Bool)
    (env env2 : TransportEnv) (now : Int) (p : JsParse)
    (hbad : ¬ IsIPv4Literal ip ∨ ¬ (1 ≤ port ∧ port ≤ 65535) ∨
      MAX_PARAM_LENGTH < params.length) :
    aioRequestCgminerApiBySock ip port params retry autoRetry env now =
      aioRequestCgminerApiBySock ip port params retry autoRetry env2 now ∧
    (aioRequestCgminerApiBySock ip port params retry autoRetry env now).tryTimes = 0 ∧
    (aioRequestCgminerApiBySock ip port params retry autoRetry env now).result = true ∧
    status p (aioRequestCgminerApiBySock ip port params retry autoRetry env now) =
      .ok (some (Json.str "E")) ∧
    statusCode p (aioRequestCgminerApiBySock ip port params retry autoRetry env now) =
      .ok (some (Json.num ERR_CODE_INVALID_INPUT)) ∧
    isRequestSuccess p (aioRequestCgminerApiBySock ip port params retry autoRetry env now) =
      .ok false := by
  have key : ∃ msg, ∀ e : TransportEnv,
      aioRequestCgminerApiBySock ip port params retry autoRetry e now =
        CGMinerAPIResult.errorResult now now msg ERR_CODE_INVALID_INPUT := by
    by_cases hip : validateIP ip = true
    · by_cases hpt : validatePort port = true
      · have hlen : MAX_PARAM_LENGTH < params.length := by
          rcases hbad with h | h | h
          · exact absurd ((validateIP_iff_IsIPv4Literal ip).mp hip) h
          · refine absurd ?_ h
            simp only [validatePort, Bool.and_eq_true, decide_eq_true_eq] at hpt
            exact hpt
          · exact h
        refine ⟨"Parameter too long", fun e => ?_⟩
        unfold aioRequestCgminerApiBySock
        rw [if_neg (by simp [hip]), if_neg (by simp [hpt]), if_pos hlen]
      · refine ⟨"Invalid port number (must be 1-65535)", fun e => ?_⟩
        unfold aioRequestCgminerApiBySock
        have hpt2 : validatePort port = false := Bool.not_eq_true _ ▸ eq_false_of_ne_true hpt
        rw [if_neg (by simp [hip]), if_pos (by simp [hpt2])]
    · refine ⟨"Invalid IP address format", fun e => ?_⟩
      unfold aioRequestCgminerApiBySock
      have hip2 : validateIP ip = false := eq_false_of_ne_true hip
      rw [if_pos (by simp [hip2])]
  obtain ⟨msg, hres⟩ := key
  rw [hres env, hres env2]
  have h := errorResultProps now now msg ERR_CODE_INVALID_INPUT p
  exact ⟨rfl, h.1, h.2.1, h.2.2.1, h.2.2.2.1, h.2.2.2.2⟩

/-- Witness instantiating `c7_input_validation_short_circuit` at the
invalid address `999.1.2.3` (first octet out of range), with two different
transport environments. -/
theorem c7_input_validation_short_circuit_witness :
    ¬ IsIPv4Literal ['9', '9', '9', '.', '1', '.', '2', '.', '3'] ∧
    aioRequestCgminerApiBySock ['9', '9', '9', '.', '1', '.', '2', '.', '3'] 4028 []
        0 true envAllGenericErr 3 =
      aioRequestCgminerApiBySock ['9', '9', '9', '.', '1', '.', '2', '.', '3'] 4028 []
        0 true envCancelled 3 ∧
    (aioRequestCgminerApiBySock ['9', '9', '9', '.', '1', '.', '2', '.', '3'] 4028 []
        0 true envAllGenericErr 3).tryTimes = 0 ∧
    statusCode parseNothing
      (aioRequestCgminerApiBySock ['9', '9', '9', '.', '1', '.', '2', '.', '3'] 4028 []
        0 true envAllGenericErr 3) = .ok (some (Json.num ERR_CODE_INVALID_INPUT)) := by
  have hnot : ¬ IsIPv4Literal ['9', '9', '9', '.', '1', '.', '2', '.', '3'] := by
    intro hlit
    have := (validateIP_iff_IsIPv4Literal _).mpr hlit
    rw [show validateIP ['9', '9', '9', '.', '1', '.', '2', '.', '3'] = false
      from by decide] at this
    cases this
  have h := c7_input_validation_short_circuit
    ['9', '9', '9', '.', '1', '.', '2', '.', '3'] 4028 [] 0 true
    envAllGenericErr envCancelled 3 parseNothing (Or.inl hnot)
  exact ⟨hnot, h.1, h.2.1, h.2.2.2.2.1⟩

/-- When the parsed payload is an object, `statusDict` returns the head of
a non-empty `STATUS` array and null otherwise. -/
theorem statusDict_obj (p : JsParse) (r : CGMinerAPIResult)
    (fs : List (String × Json)) (hrd : responseDict p r = .ok (Json.obj fs)) :
    statusDict p r = .ok
      (match lookupField fs "STATUS" with
       | some (Json.arr (entry :: _)) => some entry
       | _ => none) := by
  unfold statusDict
  rw [hrd]
  dsimp only
  rw [show jsTruthy (Json.obj fs) = true from rfl, if_pos rfl]
  rw [show jsHasKey (Json.obj fs) "STATUS" = .ok (lookupField fs "STATUS").isSome
    from rfl]
  rw [show jsGetOpt (Json.obj fs) "STATUS" = lookupField fs "STATUS" from rfl]
  cases hls : lookupField fs "STATUS" with
  | none => rfl
  | some x =>
    cases x with
    | arr elems =>
      cases elems with
      | nil => rfl
      | cons entry es => rfl
    | null => rfl
    | bool b => rfl
    | num n => rfl
    | str s => rfl
    | obj fs2 => rfl

/-- When the parsed payload is an object, `status` never throws. -/
theorem status_obj_ok (p : JsParse) (r : CGMinerAPIResult)
    (fs : List (String × Json)) (hrd : responseDict p r = .ok (Json.obj fs)) :
    ∃ v, status p r = .ok v := by
  have hsd := statusDict_obj p r fs hrd
  unfold status
  cases hls : lookupField fs "STATUS" with
  | none =>
    rw [hls] at hsd
    rw [hsd]
    dsimp only
    rw [hrd]
    exact ⟨_, rfl⟩
  | some x =>
    rw [hls] at hsd
    cases x with
    | arr elems =>
      cases elems with
      | nil =>
        rw [hsd]
        dsimp only
        rw [hrd]
        exact ⟨_, rfl⟩
      | cons entry es =>
        rw [hsd]
        cases entry <;> exact ⟨_, rfl⟩
    | null =>
      rw [hsd]
      dsimp only
      rw [hrd]
      exact ⟨_, rfl⟩
    | bool b =>
      rw [hsd]
      dsimp only
      rw [hrd]
      exact ⟨_, rfl⟩
    | num n =>
      rw [hsd]
      dsimp only
      rw [hrd]
      exact ⟨_, rfl⟩
    | str s =>
      rw [hsd]
      dsimp only
      rw [hrd]
      exact ⟨_, rfl⟩
    | obj fs2 =>
      rw [hsd]
      dsimp only
      rw [hrd]
      exact ⟨_, rfl⟩

/-- Claim C8: `status()` returns the first `STATUS` entry's letter when a
non-empty `STATUS` array is present; it returns Fatal (`F`) when the
parsed payload is empty and Success (`S`) when the payload is non-empty
but carries no `STATUS` key; and `isRequestSuccess()` is true exactly when
the raw success flag is set and the status letter is `S` or `I`. -/
theorem c8_status_semantics (p : JsParse) (r : CGMinerAPIResult)
    (fs : List (String × Json)) (hrd : responseDict p r = .ok (Json.obj fs)) :
    (∀ entry rest efs letter,
      lookupField fs "STATUS" = some (Json.arr (entry :: rest)) →
      entry = Json.obj efs →
      lookupField efs "STATUS" = some (Json.str letter) →
      status p r = .ok (some (Json.str letter))) ∧
    (fs = [] → status p r = .ok (some (Json.str "F"))) ∧
    (fs ≠ [] → lookupField fs "STATUS" = none →
      status p r = .ok (some (Json.str "S"))) ∧
    (isRequestSuccess p r = .ok true ↔
      (r.result = true ∧ (status p r = .ok (some (Json.str "S")) ∨
        status p r = .ok (some (Json.str "I"))))) := by
  refine ⟨?_, ?_, ?_, ?_⟩
  · intro entry rest efs letter hst hentry hletter
    have hsd := statusDict_obj p r fs hrd
    rw [hst] at hsd
    unfold status
    rw [hsd]
    subst hentry
    dsimp only
    rw [hletter]
  · intro hfs
    subst hfs
    have hsd := statusDict_obj p r [] hrd
    rw [show lookupField [] "STATUS" = none from rfl] at hsd
    unfold status
    rw [hsd]
    dsimp only
    rw [hrd]
    rfl
  · intro hne hst
    have hsd := statusDict_obj p r fs hrd
    rw [hst] at hsd
    unfold status
    rw [hsd]
    dsimp only
    rw [hrd]
    dsimp only
    rw [if_pos (List.length_pos.mpr hne)]
  · obtain ⟨v, hv⟩ := status_obj_ok p r fs hrd
    unfold isRequestSuccess
    rw [hv]
    cases hres : r.result with
    | false => simp
    | true =>
      cases v with
      | none => simp
      | some x => cases x <;> simp

/-- Witness instantiating `c8_status_semantics` at three concrete parsed
payloads: one with a `STATUS` entry (letter `S`), one empty (failed
parse), and one non-empty without a `STATUS` key. -/
theorem c8_status_semantics_witness :
    responseDict parseNothing sampleStatusResult = .ok (Json.obj sampleStatusFields) ∧
    status parseNothing sampleStatusResult = .ok (some (Json.str "S")) ∧
    (responseDict parseNothing sampleUnparsedResult = .ok (Json.obj []) ∧
     status parseNothing sampleUnparsedResult = .ok (some (Json.str "F"))) ∧
    status parseNothing sampleNoStatusResult = .ok (some (Json.str "S")) ∧
    isRequestSuccess parseNothing sampleStatusResult = .ok true := by
  have h1 := c8_status_semantics parseNothing sampleStatusResult sampleStatusFields rfl
  have h2 := c8_status_semantics parseNothing sampleUnparsedResult [] rfl
  have h3 := c8_status_semantics parseNothing sampleNoStatusResult
    sampleNoStatusFields rfl
  have hletterS : status parseNothing sampleStatusResult = .ok (some (Json.str "S")) :=
    h1.1 (Json.obj [("STATUS", Json.str "S"), ("Code", Json.num 11)]) []
      [("STATUS", Json.str "S"), ("Code", Json.num 11)] "S" rfl rfl rfl
  refine ⟨rfl, hletterS, ⟨rfl, h2.2.1 rfl⟩, ?_, ?_⟩
  · exact h3.2.2.1 (List.cons_ne_nil _ _) rfl
  · exact h1.2.2.2.mpr ⟨rfl, Or.inl hletterS⟩

/-- Splitting off a leading open brace from a zero-crossing decomposition. -/
theorem decompIff_open (w : List Char) (o : Int) :
    (∃ p q, '{' :: w = p ++ '}' :: q ∧ o + sumB p = 1) ↔
    (∃ p q, w = p ++ '}' :: q ∧ (o + 1) + sumB p = 1) := by
  constructor
  · rintro ⟨p, q, hw, hsum⟩
    cases p with
    | nil => cases hw
    | cons a p2 =>
      rw [List.cons_append] at hw
      injection hw with h1 h2
      subst h1
      refine ⟨p2, q, h2, ?_⟩
      simp [sumB] at hsum
      omega
  · rintro ⟨p, q, hw, hsum⟩
    refine ⟨'{' :: p, q, by rw [List.cons_append, hw], ?_⟩
    simp [sumB]
    omega

/-- Splitting off a leading close brace (that does not itself complete an
object, `o ≠ 1`) from a zero-crossing decomposition. -/
theorem decompIff_close (w : List Char) (o : Int) (ho : o ≠ 1) :
    (∃ p q, '}' :: w = p ++ '}' :: q ∧ o + sumB p = 1) ↔
    (∃ p q, w = p ++ '}' :: q ∧ (o - 1) + sumB p = 1) := by
  constructor
  · rintro ⟨p, q, hw, hsum⟩
    cases p with
    | nil =>
      simp [sumB] at hsum
      omega
    | cons a p2 =>
      rw [List.cons_append] at hw
      injection hw with h1 h2
      subst h1
      refine ⟨p2, q, h2, ?_⟩
      simp [sumB] at hsum
      omega
  · rintro ⟨p, q, hw, hsum⟩
    refine ⟨'}' :: p, q, by rw [List.cons_append, hw], ?_⟩
    simp [sumB]
    omega

/-- The brace-counting loop fires exactly when the running top-level brace
count returns to zero at some closing brace: the loop result equals the
existence of a prefix of the top-level brace sequence ending in a close
brace whose count (from the entering count `o`) reaches 1 just before it.
The side condition reflects that a close at character index 0 can only be
reached with count 0. -/
theorem braceLoop_true_iff (s : List Char) :
    ∀ (o : Int) (inS esc : Bool) (i : Nat), (0 < i ∨ o ≤ 0) →
      (braceLoop s o inS esc i = true ↔
        ∃ p q, topLevelBraces s inS esc = p ++ '}' :: q ∧ o + sumB p = 1) := by
  induction s with
  | nil =>
    intro o inS esc i hi
    simp only [braceLoop, topLevelBraces]
    constructor
    · intro h
      cases h
    · rintro ⟨p, q, hw, -⟩
      cases p with
      | nil => cases hw
      | cons a p2 => cases hw
  | cons c rest ih =>
    intro o inS esc i hi
    cases esc with
    | true =>
      rw [show braceLoop (c :: rest) o inS true i =
        braceLoop rest o inS false (i + 1) from rfl]
      rw [show topLevelBraces (c :: rest) inS true =
        topLevelBraces rest inS false from rfl]
      exact ih o inS false (i + 1) (Or.inl (Nat.succ_pos i))
    | false =>
      by_cases hbs : c = '\\'
      · subst hbs
        rw [show braceLoop ('\\' :: rest) o inS false i =
          braceLoop rest o inS true (i + 1) from rfl]
        rw [show topLevelBraces ('\\' :: rest) inS false =
          topLevelBraces rest inS true from rfl]
        exact ih o inS true (i + 1) (Or.inl (Nat.succ_pos i))
      · by_cases hq : c = '"'
        · subst hq
          rw [show braceLoop ('"' :: rest) o inS false i =
            braceLoop rest o (!inS) false (i + 1) from rfl]
          rw [show topLevelBraces ('"' :: rest) inS false =
            topLevelBraces rest (!inS) false from rfl]
          exact ih o (!inS) false (i + 1) (Or.inl (Nat.succ_pos i))
        · cases inS with
          | true =>
            simp only [braceLoop, topLevelBraces, hbs, hq, if_false]
            exact ih o true false (i + 1) (Or.inl (Nat.succ_pos i))
          | false =>
            by_cases hob : c = '{'
            · subst hob
              rw [show braceLoop ('{' :: rest) o false false i =
                braceLoop rest (o + 1) false false (i + 1) from rfl]
              rw [show topLevelBraces ('{' :: rest) false false =
                '{' :: topLevelBraces rest false false from rfl]
              rw [decompIff_open]
              exact ih (o + 1) false false (i + 1) (Or.inl (Nat.succ_pos i))
            · by_cases hcb : c = '}'
              · subst hcb
                rw [show braceLoop ('}' :: rest) o false false i =
                  (if o - 1 = 0 ∧ 0 < i then true
                   else braceLoop rest (o - 1) false false (i + 1)) from rfl]
                rw [show topLevelBraces ('}' :: rest) false false =
                  '}' :: topLevelBraces rest false false from rfl]
                by_cases ho : o = 1
                · have hipos : 0 < i := by
                    rcases hi with h | h
                    · exact h
                    · omega
                  rw [if_pos (⟨by omega, hipos⟩ : o - 1 = 0 ∧ 0 < i)]
                  constructor
                  · intro h2
                    refine ⟨[], topLevelBraces rest false false, rfl, ?_⟩
                    simp only [sumB]
                    omega
                  · intro h2
                    rfl
                · rw [if_neg (by omega : ¬ (o - 1 = 0 ∧ 0 < i))]
                  rw [decompIff_close _ _ ho]
                  exact ih (o - 1) false false (i + 1) (Or.inl (Nat.succ_pos i))
              · simp only [braceLoop, topLevelBraces, hbs, hq, hob, hcb, if_false]
                exact ih o false false (i + 1) (Or.inl (Nat.succ_pos i))

/-- Claim C6 (amended): `hasCompleteResponse` returns true exactly when
the accumulated bytes contain a NUL, or the running top-level brace count
(counting from the start of the text, skipping quoted strings, honoring
escapes) returns to exactly zero at some closing brace — i.e. some prefix
of the top-level brace sequence ends in `}` with count 1 just before it. -/
theorem c6_completion_heuristic (s : List Char) :
    hasCompleteResponse s = true ↔
      (Char.ofNat 0 ∈ s ∨
        ∃ p q, topLevelBraces s false false = p ++ '}' :: q ∧ sumB p = 1) := by
  unfold hasCompleteResponse
  by_cases hnul : Char.ofNat 0 ∈ s
  · rw [if_pos (by simpa using hnul)]
    simp [hnul]
  · rw [if_neg (by simpa using hnul)]
    rw [braceLoop_true_iff s 0 false false 0 (Or.inr (le_refl 0))]
    constructor
    · rintro ⟨p, q, hw, hsum⟩
      exact Or.inr ⟨p, q, hw, by omega⟩
    · rintro (h | ⟨p, q, hw, hsum⟩)
      · exact absurd h hnul
      · exact ⟨p, q, hw, by omega⟩

/-- Claim C6 counterexample to the iff as stated: the text `}{}` contains
a balanced top-level JSON object (`{}`) in its top-level brace sequence
and no NUL, yet `hasCompleteResponse` returns false because the leading
stray close brace drives the running count negative. -/
theorem c6_completion_heuristic_counterexample :
    ¬ (hasCompleteResponse ['}', '{', '}'] = true ↔
        (Char.ofNat 0 ∈ ['}', '{', '}'] ∨
          ContainsBalancedObject (topLevelBraces ['}', '{', '}'] false false))) := by
  intro hiff
  have hbal : ContainsBalancedObject (topLevelBraces ['}', '{', '}'] false false) := by
    rw [show topLevelBraces ['}', '{', '}'] false false = ['}', '{', '}'] from rfl]
    refine ⟨['}'], ['{', '}'], [], rfl, by simp, ?_⟩
    exact BalancedBraces.wrap BalancedBraces.nil
  have htrue := hiff.mpr (Or.inr hbal)
  rw [show hasCompleteResponse ['}', '{', '}'] = false from by decide] at htrue
  cases htrue

end FmsCore
